import Mathlib

/-!
Verification of the invoforge core services against their specification.

The Python code under `app/core` is embedded shallowly:

* `datetime.date` becomes a `Date` structure of year/month/day numbers; the
  proleptic-Gregorian ordinal (`date.toordinal`) and the weekday function are
  translated from CPython `datetime` source, and `calendar.monthrange` from
  the CPython `calendar` module (its `mdays` table plus the leap-year rule).
* Python `float` amounts are modelled as exact rationals `ℚ`; `int(x)` is
  truncation toward zero and `round` is round-half-to-even, as in Python.
* the `num2words` dependency (English cardinal words, then `str.title()`)
  is modelled from the spec, producing the title-cased words directly.
-/

namespace Invoforge

/-! ### Calendar primitives (CPython `datetime` / `calendar`) -/

/-- Gregorian leap year test, as CPython `calendar.isleap`. -/
def isLeap (y : Nat) : Bool :=
  y % 4 == 0 && (y % 100 != 0 || y % 400 == 0)

/-- The `mdays` table of CPython `calendar` (day counts of the months of a
non-leap year); index is `month - 1`. -/
def mdays : List Nat := [31, 28, 31, 30, 31, 30, 31, 31, 30, 31, 30, 31]

/-- Number of days of a month, as the second component of
`calendar.monthrange year month`. -/
def daysInMonth (y m : Nat) : Nat :=
  if m = 2 ∧ isLeap y then 29 else mdays.getD (m - 1) 0

/-- Days before January 1 of year `y`, counted from 0001-01-01
(CPython `datetime._days_before_year`). -/
def daysBeforeYear (y : Nat) : Nat :=
  (y - 1) * 365 + (y - 1) / 4 - (y - 1) / 100 + (y - 1) / 400

/-- Days of year `y` before the first of month `m`
(CPython `datetime._days_before_month`). -/
def daysBeforeMonth (y m : Nat) : Nat :=
  (mdays.take (m - 1)).sum + (if 2 < m ∧ isLeap y then 1 else 0)

/-- A calendar date, as Python `datetime.date`. -/
structure Date where
  year : Nat
  month : Nat
  day : Nat
deriving DecidableEq, Repr

/-- The proleptic Gregorian ordinal of a date, with 0001-01-01 as ordinal 1
(Python `date.toordinal`, CPython `_ymd2ord`). -/
def Date.toOrdinal (d : Date) : Nat :=
  daysBeforeYear d.year + daysBeforeMonth d.year d.month + d.day

/-- The weekday index of a proleptic Gregorian ordinal: 0 for Monday through
6 for Sunday (ordinal 1, 0001-01-01, was a Monday). -/
def weekdayOfOrdinal (n : Nat) : Nat :=
  (n + 6) % 7

/-- Python `date.weekday`: Monday is 0, Sunday is 6. -/
def Date.weekday (d : Date) : Nat :=
  weekdayOfOrdinal d.toOrdinal

/-- The dates Python `datetime.date` accepts: year 1..9999, month 1..12 and a
day within the length of the month. -/
def Date.Valid (d : Date) : Prop :=
  1 ≤ d.year ∧ d.year ≤ 9999 ∧ 1 ≤ d.month ∧ d.month ≤ 12 ∧
    1 ≤ d.day ∧ d.day ≤ daysInMonth d.year d.month

instance (d : Date) : Decidable d.Valid := by
  unfold Date.Valid; infer_instance

/-- Python date comparison: lexicographic on (year, month, day). -/
def Date.le (a b : Date) : Prop :=
  a.year < b.year ∨ (a.year = b.year ∧
    (a.month < b.month ∨ (a.month = b.month ∧ a.day ≤ b.day)))

instance (a b : Date) : Decidable (Date.le a b) := by
  unfold Date.le; infer_instance

/-- Python date comparison as a boolean, for use in filters and sorting. -/
def dateLeb (a b : Date) : Bool := decide (Date.le a b)

/-- A natural number printed with leading zeros to the given width, as the
`04d` / `02d` format specifiers used by `date.isoformat`. -/
def padNum (width n : Nat) : String :=
  let s := toString n
  String.mk (List.replicate (width - s.length) '0') ++ s

/-- Python `date.isoformat`: `YYYY-MM-DD`. -/
def Date.isoformat (d : Date) : String :=
  padNum 4 d.year ++ "-" ++ padNum 2 d.month ++ "-" ++ padNum 2 d.day

/-! ### `app/core/entities/leave.py` -/

/-- The `Leave` dataclass. -/
structure Leave where
  id : Option Int
  leave_date : Date
  reason : String := ""
deriving DecidableEq, Repr

/-- The `Leave.is_weekday` property: the leave falls on Monday..Friday. -/
def Leave.is_weekday (l : Leave) : Bool :=
  decide (l.leave_date.weekday < 5)

/-! ### `app/core/services/working_days_calculator.py` -/

/-- The `WorkingDaysResult` dataclass.  `working_days` is an integer because
the subtraction `total_weekdays - leaves` can go negative in Python. -/
structure WorkingDaysResult where
  total_weekdays : Nat
  leaves : Nat
  working_days : Int
  leave_dates : List String
deriving DecidableEq, Repr

/-- `WorkingDaysCalculator.calculate_weekdays`: the loop
`for day in range(1, num_days + 1)` counting `date(year, month, day).weekday() < 5`. -/
def calculate_weekdays (year month : Nat) : Nat :=
  (List.range' 1 (daysInMonth year month)).countP
    (fun day => decide ((Date.mk year month day).weekday < 5))

/-- `WorkingDaysCalculator.calculate`. -/
def calculate (year month : Nat) (leaves : List Leave) : WorkingDaysResult :=
  let total_weekdays := calculate_weekdays year month
  let weekday_leaves := leaves.filter Leave.is_weekday
  { total_weekdays := total_weekdays
    leaves := weekday_leaves.length
    working_days := (total_weekdays : Int) - weekday_leaves.length
    leave_dates := leaves.map (fun l => l.leave_date.isoformat) }

/-- `WorkingDaysCalculator.get_service_period`: first and last day of the
month of the reference date, the last day taken from `monthrange`. -/
def get_service_period (reference_date : Date) : Date × Date :=
  (⟨reference_date.year, reference_date.month, 1⟩,
   ⟨reference_date.year, reference_date.month,
    daysInMonth reference_date.year reference_date.month⟩)

/-- The loop of `calculate_weekdays_for_range`:
`while current <= end_date: ...; current = current + timedelta(days=1)`,
tracked through `date.toordinal`.  Adding `timedelta(days=1)` adds one to the
ordinal, and comparison of (valid) dates is comparison of their ordinals, so
the loop walks the ordinals from `cur` to `last`.  The first argument is
fuel equal to the number of iterations, making the recursion structural. -/
def countWeekdaysLoop : Nat → Nat → Nat → Nat
  | 0, _, _ => 0
  | fuel + 1, cur, last =>
    if cur ≤ last then
      (if weekdayOfOrdinal cur < 5 then 1 else 0) + countWeekdaysLoop fuel (cur + 1) last
    else 0

/-- `WorkingDaysCalculator.calculate_weekdays_for_range`. -/
def calculate_weekdays_for_range (start_date end_date : Date) : Nat :=
  countWeekdaysLoop (end_date.toOrdinal + 1 - start_date.toOrdinal)
    start_date.toOrdinal end_date.toOrdinal

/-- `WorkingDaysCalculator.calculate_for_range`. -/
def calculate_for_range (start_date end_date : Date) (leaves : List Leave) :
    WorkingDaysResult :=
  let total_weekdays := calculate_weekdays_for_range start_date end_date
  let weekday_leaves := leaves.filter
    (fun l => l.is_weekday && dateLeb start_date l.leave_date && dateLeb l.leave_date end_date)
  { total_weekdays := total_weekdays
    leaves := weekday_leaves.length
    working_days := (total_weekdays : Int) - weekday_leaves.length
    leave_dates := leaves.map (fun l => l.leave_date.isoformat) }

/-! ### `app/core/services/amount_formatter.py`

Monetary amounts are Python floats; they are modelled as exact rationals.
`int(x)` truncates toward zero and `round(x)` rounds half to even, as in
Python. -/

/-- Python `int(x)` on a rational: truncation toward zero. -/
def ratTrunc (q : ℚ) : ℤ :=
  if q < 0 then -⌊-q⌋ else ⌊q⌋

/-- Python `round(x)` on a rational: round half to even. -/
def pyRound (q : ℚ) : ℤ :=
  if q - ⌊q⌋ < 1 / 2 then ⌊q⌋
  else if 1 / 2 < q - ⌊q⌋ then ⌊q⌋ + 1
  else if ⌊q⌋ % 2 = 0 then ⌊q⌋ else ⌊q⌋ + 1

/-- Python `round(x, 2)` on a rational: round to two decimal places,
half to even. -/
def pyRound2 (q : ℚ) : ℚ :=
  (pyRound (q * 100) : ℚ) / 100

/-- Modelled from the spec: the word tables of the `num2words` dependency
(English), already in the title case produced by `str.title()`.
Entries 0..19. -/
def onesW : List String :=
  ["Zero", "One", "Two", "Three", "Four", "Five", "Six", "Seven", "Eight",
   "Nine", "Ten", "Eleven", "Twelve", "Thirteen", "Fourteen", "Fifteen",
   "Sixteen", "Seventeen", "Eighteen", "Nineteen"]

/-- Modelled from the spec: tens words of `num2words` (English), title-cased;
entry `i` stands for `(i + 2) * 10`. -/
def tensW : List String :=
  ["Twenty", "Thirty", "Forty", "Fifty", "Sixty", "Seventy", "Eighty", "Ninety"]

/-- Modelled from the spec: scale suffixes of `num2words` (English),
title-cased; entry `i` is the suffix of the base-1000 digit number `i`. -/
def scalesW : List String :=
  ["", " Thousand", " Million", " Billion", " Trillion", " Quadrillion",
   " Quintillion"]

/-- Modelled from the spec: a number 0..99 in English words, title-cased. -/
def group99 (n : Nat) : String :=
  if n < 20 then onesW.getD n ""
  else tensW.getD (n / 10 - 2) "" ++
    (if n % 10 = 0 then "" else "-" ++ onesW.getD (n % 10) "")

/-- Modelled from the spec: a number 0..999 in English words, title-cased,
with the British "And" that `num2words` inserts after "Hundred". -/
def group999 (n : Nat) : String :=
  if n < 100 then group99 n
  else onesW.getD (n / 100) "" ++ " Hundred" ++
    (if n % 100 = 0 then "" else " And " ++ group99 (n % 100))

/-- The base-1000 digits of `n`, little-endian, without trailing zeros; the
first argument is fuel bounding the number of digits. -/
def natGroups : Nat → Nat → List Nat
  | 0, _ => []
  | fuel + 1, n => if n = 0 then [] else n % 1000 :: natGroups fuel (n / 1000)

/-- Modelled from the spec: `num2words(n, lang="en")` for a natural number,
followed by `str.title()` — groups of three digits joined with commas, and
a final "And" when the last group is below one hundred. -/
def numToWords (n : Nat) : String :=
  if n = 0 then "Zero"
  else
    let gs := natGroups 7 n
    let parts := ((gs.enum.filter (fun p => p.2 ≠ 0)).map
      (fun p => group999 p.2 ++ scalesW.getD p.1 "")).reverse
    if 0 < gs.getD 0 0 ∧ gs.getD 0 0 < 100 ∧ 2 ≤ parts.length then
      String.intercalate ", " parts.dropLast ++ " And " ++ (parts.getLast?.getD "")
    else String.intercalate ", " parts

/-- Modelled from the spec: `num2words(n, lang="en").title()` for an integer;
a negative number is rendered with a leading "Minus". -/
def intToWords (n : Int) : String :=
  if n < 0 then "Minus " ++ numToWords n.natAbs else numToWords n.natAbs

/-- The `AmountFormatter.CURRENCY_NAMES` table. -/
def CURRENCY_NAMES : List (String × String) :=
  [("EUR", "Euros"), ("USD", "Dollars"), ("GBP", "Pounds"), ("INR", "Rupees")]

/-- Python `str.upper()`, mapping every character to upper case (currency
codes are ASCII, where Python and Lean agree character-wise). -/
def strUpper (s : String) : String :=
  String.mk (s.data.map Char.toUpper)

/-- The lookup `CURRENCY_NAMES.get(currency.upper(), currency)` performed by
`AmountFormatter.to_words`. -/
def currencyName (currency : String) : String :=
  (CURRENCY_NAMES.lookup (strUpper currency)).getD currency

/-- The body of `AmountFormatter.to_words` once the currency name is
resolved: split the amount into whole part (`int`) and cents (`round`), and
append the cents clause when `cents > 0`. -/
def renderAmount (amount : ℚ) (currency_name : String) : String :=
  let whole := ratTrunc amount
  let cents := pyRound ((amount - whole) * 100)
  let whole_words := intToWords whole
  if 0 < cents then
    whole_words ++ " " ++ currency_name ++ " and " ++ intToWords cents ++ " Cents"
  else
    whole_words ++ " " ++ currency_name

/-- `AmountFormatter.to_words`. -/
def to_words (amount : ℚ) (currency : String := "EUR") : String :=
  renderAmount amount (currencyName currency)

/-! ### `app/core/entities/invoice.py` and
`app/core/services/invoice_calculator.py` -/

/-- The `InvoiceInput` dataclass. -/
structure InvoiceInput where
  invoice_number : Int
  invoice_date : Date
  validity_year : String
  total_working_days : Int
  leaves_taken : Int
  leave_dates : List Date
  rate : ℚ
deriving DecidableEq, Repr

/-- The `Invoice` dataclass. -/
structure Invoice where
  invoice_number : Int
  invoice_date : Date
  service_period_start : Date
  service_period_end : Date
  validity_year : String
  total_working_days : Int
  leaves_taken : Int
  leave_dates : List Date
  days_worked : Int
  rate : ℚ
  amount : ℚ
  total_payable : ℚ
  amount_in_words : String
deriving DecidableEq, Repr

/-- `InvoiceCalculator.calculate_amount`: `round(days * rate, 2)`. -/
def calculate_amount (days : Int) (rate : ℚ) : ℚ :=
  pyRound2 (days * rate)

/-- `InvoiceCalculator.create_invoice`.  Python `sorted` on dates is embedded
as a stable merge sort by the date order. -/
def create_invoice (input_data : InvoiceInput) (currency : String := "EUR") :
    Invoice :=
  let period := get_service_period input_data.invoice_date
  let days_worked := input_data.total_working_days - input_data.leaves_taken
  let amount := calculate_amount days_worked input_data.rate
  let amount_words := to_words amount currency
  { invoice_number := input_data.invoice_number
    invoice_date := input_data.invoice_date
    service_period_start := period.1
    service_period_end := period.2
    validity_year := input_data.validity_year
    total_working_days := input_data.total_working_days
    leaves_taken := input_data.leaves_taken
    leave_dates := List.mergeSort input_data.leave_dates dateLeb
    days_worked := days_worked
    rate := input_data.rate
    amount := amount
    total_payable := amount
    amount_in_words := amount_words }

/-! ### Spec-side definitions, written from the wording of the claims -/

/-- Written from the claim wording (not from the source): the currency table
of the spec, looked up case-insensitively with unknown codes passed through. -/
def specCurrencyLookup (c : String) : String :=
  if strUpper c = "EUR" then "Euros"
  else if strUpper c = "USD" then "Dollars"
  else if strUpper c = "GBP" then "Pounds"
  else if strUpper c = "INR" then "Rupees"
  else c

/-- Written from the claim wording (not from the source): the variant of
`to_words` the claim describes, whose whole part is `floor(amount)` instead
of the truncation the code performs. -/
def to_wordsFloorSpec (amount : ℚ) (currency : String := "EUR") : String :=
  let currency_name := currencyName currency
  let whole := ⌊amount⌋
  let cents := pyRound ((amount - whole) * 100)
  let whole_words := intToWords whole
  if 0 < cents then
    whole_words ++ " " ++ currency_name ++ " and " ++ intToWords cents ++ " Cents"
  else
    whole_words ++ " " ++ currency_name

/-! ### Helper lemmas -/

/-- The range loop, supplied with fuel equal to its iteration count, counts
the weekday ordinals of the list `range' a n`. -/
theorem countWeekdaysLoop_eq (n : Nat) : ∀ a b : Nat, b + 1 = a + n →
    countWeekdaysLoop n a b
      = ((List.range' a n).filter (fun x => decide (weekdayOfOrdinal x < 5))).length := by
  induction n with
  | zero => intro a b h; simp [countWeekdaysLoop]
  | succ n ih =>
    intro a b h
    have hab : a ≤ b := by omega
    rw [List.range'_succ]
    simp only [countWeekdaysLoop, if_pos hab, List.filter_cons]
    rw [ih (a + 1) b (by omega)]
    by_cases hw : weekdayOfOrdinal a < 5
    · simp [hw, Nat.add_comm]
    · simp [hw]

/-- `calculate_weekdays_for_range` as a filtered-list length. -/
theorem calculate_weekdays_for_range_eq (s e : Date) :
    calculate_weekdays_for_range s e
      = ((List.range' s.toOrdinal (e.toOrdinal + 1 - s.toOrdinal)).filter
          (fun x => decide (weekdayOfOrdinal x < 5))).length := by
  by_cases h : s.toOrdinal ≤ e.toOrdinal
  · exact countWeekdaysLoop_eq _ _ _ (by omega)
  · have h0 : e.toOrdinal + 1 - s.toOrdinal = 0 := by omega
    simp [calculate_weekdays_for_range, h0, countWeekdaysLoop]

theorem toOrdinal_mk (y m d : Nat) :
    (Date.mk y m d).toOrdinal = daysBeforeYear y + daysBeforeMonth y m + d := rfl

/-- The month loop and the range loop over the same month count the same
list of days. -/
theorem calculate_weekdays_eq_range (y m : Nat) :
    calculate_weekdays y m
      = calculate_weekdays_for_range ⟨y, m, 1⟩ ⟨y, m, daysInMonth y m⟩ := by
  rw [calculate_weekdays_for_range_eq]
  have hf : (Date.mk y m (daysInMonth y m)).toOrdinal + 1 - (Date.mk y m 1).toOrdinal
      = daysInMonth y m := by
    simp only [toOrdinal_mk]; omega
  rw [hf]
  have hs : (Date.mk y m 1).toOrdinal = daysBeforeYear y + daysBeforeMonth y m + 1 := by
    simp [toOrdinal_mk]
  rw [hs]
  rw [← List.map_add_range' (daysBeforeYear y + daysBeforeMonth y m) 1 (daysInMonth y m) 1]
  rw [← List.countP_eq_length_filter, List.countP_map]
  unfold calculate_weekdays
  apply List.countP_congr
  intro day _
  simp only [Function.comp]
  simp only [decide_eq_true_eq, Date.weekday, weekdayOfOrdinal, toOrdinal_mk]

/-- The cardinality form of the range count: weekday ordinals of the
interval, as a `Finset` filter. -/
theorem weekday_card_Icc (a b : Nat) :
    ((Finset.Icc a b).filter (fun n => weekdayOfOrdinal n < 5)).card
      = ((List.range' a (b + 1 - a)).filter (fun x => decide (weekdayOfOrdinal x < 5))).length := by
  rw [Nat.Icc_eq_range']
  rfl

theorem isLeap_iff (y : Nat) :
    isLeap y = true ↔ (y % 4 = 0 ∧ (y % 100 ≠ 0 ∨ y % 400 = 0)) := by
  simp [isLeap]

/-- Every month of the calendar has at least one day. -/
theorem daysInMonth_pos {y m : Nat} (h1 : 1 ≤ m) (h2 : m ≤ 12) :
    1 ≤ daysInMonth y m := by
  unfold daysInMonth
  split
  · omega
  · interval_cases m <;> simp [mdays]

/-- Stepping one month adds the length of the month to `daysBeforeMonth`. -/
theorem daysBeforeMonth_succ (y m : Nat) (h1 : 1 ≤ m) (h2 : m ≤ 11) :
    daysBeforeMonth y (m + 1) = daysBeforeMonth y m + daysInMonth y m := by
  by_cases hL : isLeap y = true <;>
    (interval_cases m <;> simp [daysBeforeMonth, daysInMonth, mdays, hL])

/-- Adding the lengths of a month and of every earlier month stays within the
days before any later month. -/
theorem daysBeforeMonth_add_le {y ma mb : Nat} (h1 : 1 ≤ ma) (h2 : ma < mb)
    (h3 : mb ≤ 12) :
    daysBeforeMonth y ma + daysInMonth y ma ≤ daysBeforeMonth y mb := by
  induction mb with
  | zero => omega
  | succ mb ih =>
    by_cases hma : ma = mb
    · subst hma
      rw [daysBeforeMonth_succ y ma h1 (by omega)]
    · have h4 := ih (by omega) (by omega)
      rw [daysBeforeMonth_succ y mb (by omega) (by omega)]
      omega

/-- A month and the days before it fit within the year. -/
theorem daysBeforeMonth_add_le_year {y m : Nat} (h1 : 1 ≤ m) (h2 : m ≤ 12) :
    daysBeforeMonth y m + daysInMonth y m ≤ if isLeap y then 366 else 365 := by
  by_cases hm : m = 12
  · subst hm
    by_cases hL : isLeap y = true <;> simp [daysBeforeMonth, daysInMonth, mdays, hL]
  · have h3 : daysBeforeMonth y m + daysInMonth y m ≤ daysBeforeMonth y 12 :=
      daysBeforeMonth_add_le h1 (by omega) (by omega)
    have h4 : daysBeforeMonth y 12 ≤ if isLeap y then 366 else 365 := by
      by_cases hL : isLeap y = true <;> simp [daysBeforeMonth, mdays, hL]
    split at h4 <;> split <;> omega

/-- Stepping one year adds the length of the year to `daysBeforeYear`. -/
theorem daysBeforeYear_succ {y : Nat} (h : 1 ≤ y) :
    daysBeforeYear (y + 1) = daysBeforeYear y + (if isLeap y then 366 else 365) := by
  obtain ⟨x, rfl⟩ : ∃ x, y = x + 1 := ⟨y - 1, by omega⟩
  unfold daysBeforeYear
  simp only [Nat.add_sub_cancel]
  by_cases hL : isLeap (x + 1) = true
  · rw [if_pos hL]
    rw [isLeap_iff] at hL
    omega
  · rw [if_neg hL]
    rw [isLeap_iff] at hL
    rcases Nat.eq_zero_or_pos ((x + 1) % 4) with h4 | h4
    · have h100 : (x + 1) % 100 = 0 ∧ (x + 1) % 400 ≠ 0 := by
        rcases Nat.eq_zero_or_pos ((x + 1) % 100) with h | h
        · refine ⟨h, fun hc => hL ⟨h4, Or.inr hc⟩⟩
        · exact absurd ⟨h4, Or.inl (by omega)⟩ hL
      have r4 : (x + 1) / 4 = x / 4 + 1 := by omega
      have r100 : (x + 1) / 100 = x / 100 + 1 := by omega
      have r400 : (x + 1) / 400 = x / 400 := by omega
      omega
    · have r4 : (x + 1) / 4 = x / 4 := by omega
      have r100 : (x + 1) / 100 = x / 100 := by omega
      have r400 : (x + 1) / 400 = x / 400 := by omega
      omega

theorem daysBeforeYear_mono {a b : Nat} (h : a ≤ b) :
    daysBeforeYear a ≤ daysBeforeYear b := by
  induction b with
  | zero =>
    have ha : a = 0 := by omega
    subst ha
    exact Nat.le_refl _
  | succ b ih =>
    by_cases hab : a = b + 1
    · subst hab
      exact Nat.le_refl _
    · have h1 : daysBeforeYear a ≤ daysBeforeYear b := ih (by omega)
      have h2 : daysBeforeYear b ≤ daysBeforeYear (b + 1) := by
        rcases Nat.eq_zero_or_pos b with rfl | hb
        · exact Nat.zero_le _
        · obtain ⟨x, rfl⟩ : ∃ x, b = x + 1 := ⟨b - 1, by omega⟩
          unfold daysBeforeYear
          simp only [Nat.add_sub_cancel]
          omega
      omega

/-- A lexicographically smaller valid date has a smaller ordinal. -/
theorem toOrdinal_lt_toOrdinal {a b : Date} (ha : a.Valid) (hb : b.Valid)
    (h : a.year < b.year ∨ (a.year = b.year ∧
      (a.month < b.month ∨ (a.month = b.month ∧ a.day < b.day)))) :
    a.toOrdinal < b.toOrdinal := by
  obtain ⟨hay, hay2, ham1, ham2, had1, had2⟩ := ha
  obtain ⟨hby, hby2, hbm1, hbm2, hbd1, hbd2⟩ := hb
  unfold Date.toOrdinal
  rcases h with hy | ⟨hy, hm | ⟨hm, hd⟩⟩
  · have h1 : daysBeforeMonth a.year a.month + daysInMonth a.year a.month
        ≤ if isLeap a.year then 366 else 365 :=
      daysBeforeMonth_add_le_year ham1 ham2
    have h2 : daysBeforeYear (a.year + 1)
        = daysBeforeYear a.year + (if isLeap a.year then 366 else 365) :=
      daysBeforeYear_succ hay
    have h3 : daysBeforeYear (a.year + 1) ≤ daysBeforeYear b.year :=
      daysBeforeYear_mono (by omega)
    by_cases hLp : isLeap a.year = true
    · rw [if_pos hLp] at h1 h2; omega
    · rw [if_neg hLp] at h1 h2; omega
  · rw [hy]
    have h1 : daysBeforeMonth b.year a.month + daysInMonth b.year a.month
        ≤ daysBeforeMonth b.year b.month :=
      daysBeforeMonth_add_le ham1 hm hbm2
    rw [hy] at had2
    omega
  · rw [hy, hm]
    omega

/-- The boolean leave filter of `calculate_for_range`, as a proposition. -/
theorem range_filter_iff (s e : Date) (l : Leave) :
    (l.is_weekday && dateLeb s l.leave_date && dateLeb l.leave_date e) = true
      ↔ (l.leave_date.weekday < 5 ∧ Date.le s l.leave_date ∧ Date.le l.leave_date e) := by
  simp [Leave.is_weekday, dateLeb, and_assoc]

/-- On valid dates, the Python date order agrees with the ordinal order. -/
theorem le_iff_toOrdinal_le {a b : Date} (ha : a.Valid) (hb : b.Valid) :
    Date.le a b ↔ a.toOrdinal ≤ b.toOrdinal := by
  constructor
  · intro h
    by_cases heq : a = b
    · rw [heq]
    · have hstrict : a.year < b.year ∨ (a.year = b.year ∧
          (a.month < b.month ∨ (a.month = b.month ∧ a.day < b.day))) := by
        cases a; cases b
        simp_all [Date.le, Date.mk.injEq]
        omega
      exact Nat.le_of_lt (toOrdinal_lt_toOrdinal ha hb hstrict)
  · intro h
    by_contra hle
    have hstrict : b.year < a.year ∨ (b.year = a.year ∧
        (b.month < a.month ∨ (b.month = a.month ∧ b.day < a.day))) := by
      cases a; cases b
      simp_all [Date.le]
      omega
    have := toOrdinal_lt_toOrdinal hb ha hstrict
    omega

/-- On a nonnegative rational, Python truncation agrees with the floor. -/
theorem ratTrunc_of_nonneg {q : ℚ} (h : 0 ≤ q) : ratTrunc q = ⌊q⌋ := by
  unfold ratTrunc
  rw [if_neg (not_lt.mpr h)]

/-- On a negative non-integer rational, Python truncation is the floor plus
one (the ceiling). -/
theorem ratTrunc_of_neg {q : ℚ} (h : q < 0) (hni : ∀ n : ℤ, q ≠ (n : ℚ)) :
    ratTrunc q = ⌊q⌋ + 1 := by
  unfold ratTrunc
  rw [if_pos h, Int.floor_neg, neg_neg]
  have hne : q ≠ ((⌊q⌋ : ℤ) : ℚ) := hni ⌊q⌋
  have h1 : ⌈q⌉ ≤ ⌊q⌋ + 1 := Int.ceil_le_floor_add_one q
  have h2 : ⌊q⌋ < ⌈q⌉ := by
    by_contra hc
    push_neg at hc
    have hfl : ((⌊q⌋ : ℤ) : ℚ) ≤ q := Int.floor_le q
    have hcl : q ≤ ((⌈q⌉ : ℤ) : ℚ) := Int.le_ceil q
    have hcast : ((⌈q⌉ : ℤ) : ℚ) ≤ ((⌊q⌋ : ℤ) : ℚ) := by exact_mod_cast hc
    exact hne (le_antisymm (hcl.trans hcast) hfl)
  omega

/-- Python rounding sends a nonpositive rational to a nonpositive integer. -/
theorem pyRound_nonpos {q : ℚ} (h : q ≤ 0) : pyRound q ≤ 0 := by
  have hfl : ⌊q⌋ ≤ 0 := Int.floor_nonpos h
  have hup : ¬(q - ⌊q⌋ < 1 / 2) → ⌊q⌋ + 1 ≤ 0 := by
    intro h1
    push_neg at h1
    by_contra hc
    push_neg at hc
    have h0 : ⌊q⌋ = 0 := by omega
    rw [h0] at h1
    push_cast at h1
    linarith
  unfold pyRound
  split_ifs with h1 h2 h3
  · exact hfl
  · exact hup h1
  · exact hfl
  · exact hup h1

/-- The rendering of `to_words` when the cents part is positive. -/
theorem to_words_of_cents_pos {q : ℚ} {c : String}
    (h : 0 < pyRound ((q - (ratTrunc q : ℚ)) * 100)) :
    to_words q c
      = intToWords (ratTrunc q) ++ " " ++ currencyName c ++ " and "
        ++ intToWords (pyRound ((q - (ratTrunc q : ℚ)) * 100)) ++ " Cents" := by
  simp only [to_words, renderAmount]
  rw [if_pos h]

/-- The rendering of `to_words` when the cents part is not positive. -/
theorem to_words_of_cents_nonpos {q : ℚ} {c : String}
    (h : pyRound ((q - (ratTrunc q : ℚ)) * 100) ≤ 0) :
    to_words q c = intToWords (ratTrunc q) ++ " " ++ currencyName c := by
  simp only [to_words, renderAmount]
  rw [if_neg (by omega)]

/-- The table lookup of the code agrees with the case-insensitive
pass-through lookup the spec describes. -/
theorem currencyName_eq_spec (c : String) :
    currencyName c = specCurrencyLookup c := by
  unfold currencyName specCurrencyLookup CURRENCY_NAMES
  by_cases h1 : strUpper c = "EUR"
  · simp [List.lookup, h1]
  · have e1 : (strUpper c == "EUR") = false := by simp [h1]
    by_cases h2 : strUpper c = "USD"
    · simp [List.lookup, e1, h2]
    · have e2 : (strUpper c == "USD") = false := by simp [h2]
      by_cases h3 : strUpper c = "GBP"
      · simp [List.lookup, e1, e2, h3]
      · have e3 : (strUpper c == "GBP") = false := by simp [h3]
        by_cases h4 : strUpper c = "INR"
        · simp [List.lookup, e1, e2, e3, h4]
        · have e4 : (strUpper c == "INR") = false := by simp [h4]
          simp [List.lookup, e1, e2, e3, e4, h1, h2, h3, h4]

/-- Calibration of the date model against Python: known weekdays and month
counts (January 2025 has 23 weekdays, February 2025 has 20, the leap
February 2024 has 21; 2025-01-06 is a Monday and 2025-01-04 a Saturday). -/
theorem model_calibration :
    calculate_weekdays 2025 1 = 23 ∧ calculate_weekdays 2025 2 = 20 ∧
    calculate_weekdays 2024 2 = 21 ∧ (Date.mk 2025 1 6).weekday = 0 ∧
    (Date.mk 2025 1 4).weekday = 5 ∧ (Date.mk 2025 1 6).isoformat = "2025-01-06" ∧
    numToWords 6194 = "Six Thousand, One Hundred And Ninety-Four" := by
  refine ⟨by decide, by decide, by decide, by decide, by decide, by decide, by decide⟩

/-! ### Claim theorems -/

/-- C1: for every year, month and list of leaves,
`WorkingDaysCalculator.calculate` returns the total weekdays of the month,
a `leaves` count equal to the number of supplied leaves falling on a weekday
(weekday index below 5), `working_days` equal to their difference, and
`leave_dates` equal to the ISO strings of every supplied leave in input
order (weekend leaves included); on January 2025 with leaves on Monday the
6th, Tuesday the 7th and Saturday the 4th it yields 23 weekdays, 2 counted
leaves, 21 working days and all 3 dates listed. -/
theorem C1_calculate_month :
    (∀ (year month : Nat) (leaves : List Leave),
      calculate year month leaves =
        { total_weekdays := calculate_weekdays year month
          leaves := leaves.countP (fun l => decide (l.leave_date.weekday < 5))
          working_days := (calculate_weekdays year month : Int)
            - leaves.countP (fun l => decide (l.leave_date.weekday < 5))
          leave_dates := leaves.map (fun l => l.leave_date.isoformat) }) ∧
    calculate 2025 1
        [⟨none, ⟨2025, 1, 6⟩, ""⟩, ⟨none, ⟨2025, 1, 7⟩, ""⟩, ⟨none, ⟨2025, 1, 4⟩, ""⟩]
      = { total_weekdays := 23, leaves := 2, working_days := 21,
          leave_dates := ["2025-01-06", "2025-01-07", "2025-01-04"] } := by
  constructor
  · intro year month leaves
    unfold calculate
    simp only [List.countP_eq_length_filter]
    rfl
  · decide

/-- C2: in `WorkingDaysCalculator.calculate_for_range` a supplied leave
lowers `working_days` (and raises the `leaves` count) exactly when it falls
on a weekday and lies within the inclusive range; a leave failing either
condition leaves both counts unchanged; and `leave_dates` always gains the
ISO string of every supplied leave. -/
theorem C2_calculate_for_range_leaves :
    ∀ (s e : Date) (leaves : List Leave) (l : Leave),
      (¬(l.leave_date.weekday < 5 ∧ Date.le s l.leave_date ∧ Date.le l.leave_date e) →
        (calculate_for_range s e (leaves ++ [l])).working_days
            = (calculate_for_range s e leaves).working_days ∧
        (calculate_for_range s e (leaves ++ [l])).leaves
            = (calculate_for_range s e leaves).leaves) ∧
      ((l.leave_date.weekday < 5 ∧ Date.le s l.leave_date ∧ Date.le l.leave_date e) →
        (calculate_for_range s e (leaves ++ [l])).working_days
            = (calculate_for_range s e leaves).working_days - 1 ∧
        (calculate_for_range s e (leaves ++ [l])).leaves
            = (calculate_for_range s e leaves).leaves + 1) ∧
      (calculate_for_range s e (leaves ++ [l])).leave_dates
          = (calculate_for_range s e leaves).leave_dates ++ [l.leave_date.isoformat] := by
  intro s e leaves l
  refine ⟨?_, ?_, ?_⟩
  · intro h
    have hb : (l.is_weekday && dateLeb s l.leave_date && dateLeb l.leave_date e) = false := by
      cases hcase : (l.is_weekday && dateLeb s l.leave_date && dateLeb l.leave_date e) with
      | false => rfl
      | true => exact absurd ((range_filter_iff s e l).mp hcase) h
    constructor <;> simp [calculate_for_range, List.filter_append, hb]
  · intro h
    have hb : (l.is_weekday && dateLeb s l.leave_date && dateLeb l.leave_date e) = true :=
      (range_filter_iff s e l).mpr h
    constructor
    · simp [calculate_for_range, List.filter_append, hb]
      omega
    · simp [calculate_for_range, List.filter_append, hb]
  · simp [calculate_for_range]

/-- Witness for C2 at concrete inputs: a Monday leave outside January 2025
changes nothing but the listing; a Monday leave inside it lowers
`working_days` by one. -/
theorem C2_witness :
    (calculate_for_range ⟨2025, 1, 1⟩ ⟨2025, 1, 31⟩ ([] ++ [⟨none, ⟨2025, 2, 3⟩, ""⟩])).working_days
        = (calculate_for_range ⟨2025, 1, 1⟩ ⟨2025, 1, 31⟩ []).working_days ∧
    (calculate_for_range ⟨2025, 1, 1⟩ ⟨2025, 1, 31⟩ ([] ++ [⟨none, ⟨2025, 1, 6⟩, ""⟩])).working_days
        = (calculate_for_range ⟨2025, 1, 1⟩ ⟨2025, 1, 31⟩ []).working_days - 1 :=
  ⟨((C2_calculate_for_range_leaves ⟨2025, 1, 1⟩ ⟨2025, 1, 31⟩ [] ⟨none, ⟨2025, 2, 3⟩, ""⟩).1
      (by decide)).1,
   ((C2_calculate_for_range_leaves ⟨2025, 1, 1⟩ ⟨2025, 1, 31⟩ [] ⟨none, ⟨2025, 1, 6⟩, ""⟩).2.1
      (by decide)).1⟩

/-- C3: counting the weekdays of a month agrees with counting the weekdays
of the range from the first to the last day of that month, for every year
and month. -/
theorem C3_month_matches_range :
    ∀ year month : Nat,
      calculate_weekdays year month
        = calculate_weekdays_for_range ⟨year, month, 1⟩
            ⟨year, month, daysInMonth year month⟩ :=
  fun year month => calculate_weekdays_eq_range year month

/-- C4: `calculate_weekdays_for_range` counts exactly the calendar days of
the inclusive range (identified by their Gregorian ordinal, with
`Date.weekday = weekdayOfOrdinal ∘ Date.toOrdinal`) whose weekday index is
below 5; it returns 0 whenever the start date is after the end date; and on
the two ranges of the spec it returns 13 and 15. -/
theorem C4_range_count :
    (∀ s e : Date,
      calculate_weekdays_for_range s e
        = ((Finset.Icc s.toOrdinal e.toOrdinal).filter
            (fun n => weekdayOfOrdinal n < 5)).card) ∧
    (∀ d : Date, d.weekday = weekdayOfOrdinal d.toOrdinal) ∧
    (∀ s e : Date, s.Valid → e.Valid → ¬ Date.le s e →
      calculate_weekdays_for_range s e = 0) ∧
    calculate_weekdays_for_range ⟨2025, 12, 15⟩ ⟨2025, 12, 31⟩ = 13 ∧
    calculate_weekdays_for_range ⟨2025, 12, 20⟩ ⟨2026, 1, 10⟩ = 15 := by
  refine ⟨?_, fun d => rfl, ?_, by decide, by decide⟩
  · intro s e
    rw [calculate_weekdays_for_range_eq, weekday_card_Icc]
  · intro s e hs he hle
    have hord : e.toOrdinal < s.toOrdinal := by
      by_contra hc
      exact hle ((le_iff_toOrdinal_le hs he).mpr (by omega))
    unfold calculate_weekdays_for_range
    have h0 : e.toOrdinal + 1 - s.toOrdinal = 0 := by omega
    rw [h0]
    rfl

/-- Witness for C4 at a concrete input: a reversed range counts zero. -/
theorem C4_witness :
    calculate_weekdays_for_range ⟨2025, 1, 10⟩ ⟨2025, 1, 5⟩ = 0 :=
  C4_range_count.2.2.1 ⟨2025, 1, 10⟩ ⟨2025, 1, 5⟩ (by decide) (by decide) (by decide)

/-- C6: `get_service_period` returns the first and the last calendar day of
the month of the reference date: both are valid dates of that same year and
month, every valid date of that month lies between them, and the spec
examples hold, including the leap February 2024 ending on the 29th. -/
theorem C6_service_period :
    (∀ d : Date, d.Valid →
      get_service_period d
          = (⟨d.year, d.month, 1⟩, ⟨d.year, d.month, daysInMonth d.year d.month⟩) ∧
      (get_service_period d).1.Valid ∧
      (get_service_period d).2.Valid ∧
      (∀ d' : Date, d'.Valid → d'.year = d.year → d'.month = d.month →
        Date.le (get_service_period d).1 d' ∧ Date.le d' (get_service_period d).2)) ∧
    get_service_period ⟨2025, 1, 15⟩ = (⟨2025, 1, 1⟩, ⟨2025, 1, 31⟩) ∧
    get_service_period ⟨2024, 2, 10⟩ = (⟨2024, 2, 1⟩, ⟨2024, 2, 29⟩) := by
  refine ⟨?_, by decide, by decide⟩
  intro d hd
  obtain ⟨h1, h2, h3, h4, h5, h6⟩ := hd
  have hpos : 1 ≤ daysInMonth d.year d.month := daysInMonth_pos h3 h4
  refine ⟨rfl, ⟨h1, h2, h3, h4, Nat.le_refl 1, hpos⟩,
    ⟨h1, h2, h3, h4, hpos, Nat.le_refl _⟩, ?_⟩
  intro d' hd' hy hm
  obtain ⟨g1, g2, g3, g4, g5, g6⟩ := hd'
  rw [hy, hm] at g6
  constructor
  · simp only [get_service_period, Date.le]
    omega
  · simp only [get_service_period, Date.le]
    omega

/-- Witness for C6 at a concrete input: the leap February 2024. -/
theorem C6_witness :
    (get_service_period ⟨2024, 2, 10⟩).2.Valid ∧
    Date.le ⟨2024, 2, 29⟩ (get_service_period ⟨2024, 2, 10⟩).2 :=
  ⟨(C6_service_period.1 ⟨2024, 2, 10⟩ (by decide)).2.2.1,
   ((C6_service_period.1 ⟨2024, 2, 10⟩ (by decide)).2.2.2 ⟨2024, 2, 29⟩
      (by decide) rfl rfl).2⟩

/-- C5: `InvoiceCalculator.create_invoice` sets
`days_worked = total_working_days - leaves_taken` without clamping (the
concrete input with 5 working days and 7 leaves yields -2),
`amount = round(days_worked * rate, 2)`, and `total_payable` identical to
`amount`. -/
theorem C5_invoice_amounts :
    (∀ (inp : InvoiceInput) (c : String),
      (create_invoice inp c).days_worked = inp.total_working_days - inp.leaves_taken ∧
      (create_invoice inp c).amount
          = pyRound2 (((inp.total_working_days - inp.leaves_taken : ℤ) : ℚ) * inp.rate) ∧
      (create_invoice inp c).total_payable = (create_invoice inp c).amount) ∧
    (create_invoice ⟨7, ⟨2025, 3, 10⟩, "2025", 5, 7, [], 95⟩ "EUR").days_worked = -2 := by
  refine ⟨fun inp c => ⟨rfl, rfl, rfl⟩, by decide⟩

/-- C7 counterexample: at the amount -0.5 the code (truncating with `int`)
renders differently from the claim, which floors the amount. -/
theorem C7_counterexample :
    to_words (-(1 : ℚ)/2) "EUR" ≠ to_wordsFloorSpec (-(1 : ℚ)/2) "EUR" := by
  have h1 : ratTrunc (-(1 : ℚ)/2) = 0 := by
    unfold ratTrunc
    rw [if_pos (by norm_num)]
    norm_num
  have h2 : pyRound ((-(1 : ℚ)/2 - ((0 : ℤ) : ℚ)) * 100) = -50 := by
    norm_num [pyRound]
  have h3 : to_words (-(1 : ℚ)/2) "EUR" = intToWords 0 ++ " " ++ currencyName "EUR" := by
    rw [to_words_of_cents_nonpos (by rw [h1, h2]; norm_num)]
    rw [h1]
  have h4 : (⌊(-(1 : ℚ)/2)⌋ : ℤ) = -1 := by norm_num
  have h5 : pyRound ((-(1 : ℚ)/2 - ((-1 : ℤ) : ℚ)) * 100) = 50 := by
    norm_num [pyRound]
  have h6 : to_wordsFloorSpec (-(1 : ℚ)/2) "EUR"
      = intToWords (-1) ++ " " ++ currencyName "EUR" ++ " and "
        ++ intToWords 50 ++ " Cents" := by
    simp only [to_wordsFloorSpec]
    rw [h4, h5, if_pos (by norm_num)]
  rw [h3, h6]
  decide

/-- C7 as amended: the whole part is `int(amount)` (truncation toward zero,
which agrees with the floor for nonnegative amounts), the cents are
`round((amount - whole) * 100)`, the cents clause is appended exactly when
the cents are positive, and a zero amount renders as Zero plus the currency
name. -/
theorem C7_amended_split :
    (∀ (amount : ℚ) (c : String),
      (0 < pyRound ((amount - (ratTrunc amount : ℚ)) * 100) →
        to_words amount c
          = intToWords (ratTrunc amount) ++ " " ++ currencyName c ++ " and "
            ++ intToWords (pyRound ((amount - (ratTrunc amount : ℚ)) * 100)) ++ " Cents") ∧
      (pyRound ((amount - (ratTrunc amount : ℚ)) * 100) ≤ 0 →
        to_words amount c = intToWords (ratTrunc amount) ++ " " ++ currencyName c) ∧
      (0 ≤ amount → ratTrunc amount = ⌊amount⌋)) ∧
    (∀ c : String, to_words 0 c = "Zero " ++ currencyName c) := by
  constructor
  · exact fun amount c =>
      ⟨fun h => to_words_of_cents_pos h, fun h => to_words_of_cents_nonpos h,
       fun h => ratTrunc_of_nonneg h⟩
  · intro c
    have h1 : ratTrunc (0 : ℚ) = 0 := by
      unfold ratTrunc
      norm_num
    have h2 : pyRound (((0 : ℚ) - ((0 : ℤ) : ℚ)) * 100) = 0 := by
      norm_num [pyRound]
    rw [to_words_of_cents_nonpos (by rw [h1, h2])]
    rw [h1]
    rfl

/-- Witness for C7 at the concrete amount 100.50. -/
theorem C7_witness :
    to_words (201/2 : ℚ) "EUR"
      = intToWords (ratTrunc (201/2 : ℚ)) ++ " " ++ currencyName "EUR" ++ " and "
        ++ intToWords (pyRound (((201/2 : ℚ) - (ratTrunc (201/2 : ℚ) : ℚ)) * 100)) ++ " Cents" :=
  (C7_amended_split.1 (201/2) "EUR").1 (by
    have h1 : ratTrunc (201/2 : ℚ) = 100 := by
      unfold ratTrunc
      rw [if_neg (by norm_num)]
      norm_num
    rw [h1]
    norm_num [pyRound])

/-- C8: `to_words` resolves the currency name exactly as the spec table does
(case-insensitive, unknown codes passed through), and the concrete examples
of the spec hold, including a lower-case code and an unknown code. -/
theorem C8_currency_lookup :
    (∀ (amount : ℚ) (c : String),
      to_words amount c = renderAmount amount (specCurrencyLookup c)) ∧
    to_words 100 "EUR" = "One Hundred Euros" ∧
    to_words (201/2 : ℚ) "EUR" = "One Hundred Euros and Fifty Cents" ∧
    to_words 100 "eur" = "One Hundred Euros" ∧
    (∃ before after, to_words 100 "XYZ" = before ++ "XYZ" ++ after) := by
  have h1 : ratTrunc (100 : ℚ) = 100 := by
    unfold ratTrunc
    rw [if_neg (by norm_num)]
    norm_num
  have h2 : pyRound (((100 : ℚ) - ((100 : ℤ) : ℚ)) * 100) = 0 := by
    norm_num [pyRound]
  have hwhole : ∀ c : String,
      to_words 100 c = intToWords 100 ++ " " ++ currencyName c := by
    intro c
    rw [to_words_of_cents_nonpos (by rw [h1, h2])]
    rw [h1]
  refine ⟨?_, ?_, ?_, ?_, ?_⟩
  · intro amount c
    unfold to_words
    rw [currencyName_eq_spec]
  · rw [hwhole]
    decide
  · have h3 : ratTrunc (201/2 : ℚ) = 100 := by
      unfold ratTrunc
      rw [if_neg (by norm_num)]
      norm_num
    have h4 : pyRound (((201/2 : ℚ) - ((100 : ℤ) : ℚ)) * 100) = 50 := by
      norm_num [pyRound]
    rw [to_words_of_cents_pos (by rw [h3, h4]; norm_num)]
    rw [h3, h4]
    decide
  · rw [hwhole]
    decide
  · refine ⟨"One Hundred ", "", ?_⟩
    rw [hwhole]
    decide

/-- C9: the leave dates stored on the created invoice are the input dates
sorted ascending: the stored sequence is sorted for the date order and is a
permutation of the input (same multiset, duplicates kept, same length). -/
theorem C9_leave_dates_sorted :
    ∀ (inp : InvoiceInput) (c : String),
      List.Sorted Date.le (create_invoice inp c).leave_dates ∧
      (create_invoice inp c).leave_dates.Perm inp.leave_dates ∧
      (create_invoice inp c).leave_dates.length = inp.leave_dates.length := by
  intro inp c
  have hld : (create_invoice inp c).leave_dates
      = List.mergeSort inp.leave_dates dateLeb := rfl
  have htrans : ∀ a b d : Date, dateLeb a b → dateLeb b d → dateLeb a d := by
    intro a b d hab hbd
    simp only [dateLeb, decide_eq_true_eq, Date.le] at *
    omega
  have htotal : ∀ a b : Date, dateLeb a b || dateLeb b a := by
    intro a b
    simp only [dateLeb, Bool.or_eq_true, decide_eq_true_eq, Date.le]
    omega
  have hperm : List.Perm (List.mergeSort inp.leave_dates dateLeb) inp.leave_dates :=
    List.mergeSort_perm inp.leave_dates dateLeb
  refine ⟨?_, hld ▸ hperm, hld ▸ hperm.length_eq⟩
  rw [hld]
  exact (List.sorted_mergeSort htrans htotal inp.leave_dates).imp
    (fun hab => of_decide_eq_true hab)

/-- C10: on a negative amount with a nonzero fractional part, the whole part
is truncated toward zero (floor plus one, not the floor), the computed cents
are nonpositive, the Cents clause is never emitted, and -10.50 EUR renders
as the words of -10 alone. -/
theorem C10_negative_fraction :
    (∀ (q : ℚ) (c : String), q < 0 → (∀ n : ℤ, q ≠ (n : ℚ)) →
      ratTrunc q = ⌊q⌋ + 1 ∧
      pyRound ((q - (ratTrunc q : ℚ)) * 100) ≤ 0 ∧
      to_words q c = intToWords (ratTrunc q) ++ " " ++ currencyName c) ∧
    to_words (-21/2 : ℚ) "EUR" = "Minus Ten Euros" := by
  constructor
  · intro q c hq hni
    have hw : ratTrunc q = ⌊q⌋ + 1 := ratTrunc_of_neg hq hni
    have hcents : pyRound ((q - (ratTrunc q : ℚ)) * 100) ≤ 0 := by
      apply pyRound_nonpos
      have hlt : q < ((⌊q⌋ : ℤ) : ℚ) + 1 := Int.lt_floor_add_one q
      have hsub : q - ((ratTrunc q : ℤ) : ℚ) ≤ 0 := by
        rw [hw]
        push_cast
        linarith
      linarith
    exact ⟨hw, hcents, to_words_of_cents_nonpos hcents⟩
  · have h1 : ratTrunc (-21/2 : ℚ) = -10 := by
      unfold ratTrunc
      rw [if_pos (by norm_num)]
      norm_num
    have h2 : pyRound (((-21/2 : ℚ) - ((-10 : ℤ) : ℚ)) * 100) = -50 := by
      norm_num [pyRound]
    rw [to_words_of_cents_nonpos (by rw [h1, h2]; norm_num)]
    rw [h1]
    decide

/-- Witness for C10 at the concrete amount -10.50. -/
theorem C10_witness :
    to_words (-21/2 : ℚ) "EUR"
      = intToWords (ratTrunc (-21/2 : ℚ)) ++ " " ++ currencyName "EUR" :=
  ((C10_negative_fraction.1 (-21/2) "EUR" (by norm_num) (by
    intro n hn
    have h2 : (2 : ℚ) * n = -21 := by
      rw [← hn]
      norm_num
    have h3 : (2 * n : ℤ) = -21 := by exact_mod_cast h2
    omega)).2.2)

end Invoforge
